import Mathlib

/-!
Shallow embedding of the structural operators of
`driver/normalizer/normalizer.go` (csharp-driver), together with proofs
about the properties the specification states for them.

The node model follows `bblfsh/sdk/uast/nodes`: a node is one of
Null/Bool/Int/Uint/Float/String/Array/Object.  Go's `nodes.Object` is a
`map[string]Node`; we model it as an association list with unique keys and
iterate fields in list order (Go's map iteration order is unspecified; the
claims under verification do not depend on it).  A Go `nil` node is `Node.null`.
Clone-before-mutate operations (`CloneObject`, `CloneList`) are identities in
this persistent model.
-/

/-- Tagged tree value type of the driver, mirroring `nodes.Node` of the SDK.
`float` carries uninterpreted IEEE bits: no claim computes with floats. -/
inductive Node where
  | null
  | bool (b : Bool)
  | int (i : Int)
  | uint (u : Nat)
  | float (bits : Nat)
  | str (s : String)
  | array (elems : List Node)
  | obj (fields : List (String × Node))

/-- Fields of an object node: association list from key to value. -/
abbrev Fields := List (String × Node)

/-- Per-attempt variable binding store (`transformer.State`); the structural
operators only thread it through to their sub-operations. -/
abbrev State := List (String × Node)

/-- Result of a `Check`/`Construct` call: Go's `(T, error)` pair where a
non-nil error is fatal; the mutated binding store is threaded explicitly. -/
abbrev Res (α : Type) := Except String (α × State)

/-- Lookup of a field in a Go map: `v, ok := obj[key]`; `some .null` is a key
present with a nil value, `none` is an absent key. -/
def getField : Fields → String → Option Node
  | [], _ => none
  | (k, v) :: rest, key => if k = key then some v else getField rest key

/-- Go map indexing without the `ok` flag: a missing key reads as nil. -/
def getFieldD (fs : Fields) (key : String) : Node :=
  (getField fs key).getD .null

/-- Go map assignment `obj[key] = v`: replaces in place, appends if absent. -/
def setField : Fields → String → Node → Fields
  | [], key, v => [(key, v)]
  | (k, w) :: rest, key, v =>
    if k = key then (key, v) :: rest else (k, w) :: setField rest key v

/-- Go `delete(obj, key)`. -/
def removeField : Fields → String → Fields
  | [], _ => []
  | (k, w) :: rest, key =>
    if k = key then removeField rest key else (k, w) :: removeField rest key

/-- Type assertion `n.(nodes.Array)` as an option. -/
def asArr? : Node → Option (List Node)
  | .array l => some l
  | _ => none

/-- Type assertion `n.(nodes.Object)` with a junk default; used only where the
source performs a blind assertion that cannot fail (the value's `@type` was
already checked, so it is an object). -/
def objFields : Node → Fields
  | .obj fs => fs
  | _ => []

namespace uast

/-- Reserved key for the type discriminator (`uast.KeyType`). -/
def KeyType : String := "@type"

/-- The `uast.TypeOf` helper of the SDK: the string under `@type` of an
object, and the empty string for everything else. -/
def TypeOf : Node → String
  | .obj fs =>
    match getField fs KeyType with
    | some (.str s) => s
    | _ => ""
  | _ => ""

end uast

/-- Type tag of the generic wrapper (`uast.TypeOf(uast.Group{})`). -/
def typeGroup : String := "uast:Group"

/-- Type tag of the canonical function container
(`uast.TypeOf(uast.FunctionGroup{})`). -/
def typeFuncGroup : String := "uast:FunctionGroup"

/-- Index search shared by the source's scanning loops: first index whose
element satisfies the predicate (`-1` in Go becomes `none`). -/
def firstIdxP (p : Node → Bool) : List Node → Option Nat
  | [] => none
  | sub :: rest => if p sub then some 0 else (firstIdxP p rest).map (· + 1)

/-- The source helper `firstWithType`: index of the first node whose type
matches the filter function. -/
def firstWithType (arr : List Node) (fnc : String → Bool) : Option Nat :=
  firstIdxP (fun sub => fnc (uast.TypeOf sub)) arr

/-- A rewrite unit: the `Check`/`Construct` contract of `transformer.Op`.
Sub-patterns of the structural operators are values of this type. -/
structure Op where
  check : State → Node → Res Bool
  construct : State → Node → Res Node

/-- Modelled from the spec: the engine's wildcard base combinator
("wildcard match" among the consumed collaborator capabilities, SDK
`transformer.Any`); matches anything, binds nothing, passes values through. -/
def anyOp : Op :=
  ⟨fun st _ => .ok (true, st), fun st n => .ok (n, st)⟩

/-- Modelled from the spec: the named-capture base combinator ("bind on
Check, emit bound value on Construct", SDK `transformer.Var`), simplified to
first-bind semantics; the uses below never rebind a name. -/
def opVar (name : String) : Op :=
  ⟨fun st n => .ok (true, setField st name n),
   fun st _ =>
     match getField st name with
     | some v => .ok (v, st)
     | none => .error ("variable not bound: " ++ name)⟩

/-- Modelled from the spec: a base combinator that constructs a fixed node
("exact-value match" among the consumed collaborator capabilities); only its
`construct` half is exercised below, so `check` is the wildcard. -/
def opConst (v : Node) : Op :=
  ⟨fun st _ => .ok (true, st), fun st _ => .ok (v, st)⟩

/-! ### Keyword-flag extractor (`opArrHasKeyword`) -/

/-- The element filter inside `opArrHasKeyword.Check`'s scanning loop:
skip non-objects, skip objects without a `@type` key, skip non-string type
values, and compare the type discriminator with the configured keyword. -/
def isKeywordNode (keyword : String) : Node → Bool
  | .obj fields =>
    match getField fields uast.KeyType with
    | some (.str typ) => typ = keyword
    | _ => false
  | _ => false

/-- Scanning loop of `opArrHasKeyword.Check`: index of the first element
whose type discriminator equals the keyword. -/
def findKeywordIdx (keyword : String) (arr : List Node) : Option Nat :=
  firstIdxP (isKeywordNode keyword) arr

/-- The keyword-flag extractor operator. -/
structure opArrHasKeyword where
  keyword : String
  opHas : Op
  opRest : Op

/-- Check of `opArrHasKeyword`.  In the source, a failed `n.(nodes.Array)`
assertion leaves `arr` as the nil slice, and the guard `!ok && arr != nil`
compares that zero value against nil, so it never triggers: a non-Array
input falls through and is handled by the not-found branch with the empty
`arr` and the original node `n`. -/
def opArrHasKeyword.Check (op : opArrHasKeyword) (st : State) (n : Node) : Res Bool :=
  let arr := (asArr? n).getD []
  match findKeywordIdx op.keyword arr with
  | some i =>
    -- found the keyword: flag sub-op gets true, rest gets the array minus
    -- the element (`copy(rest, arr[:i]); copy(rest[i:], arr[i+1:])`)
    match op.opHas.check st (.bool true) with
    | .error e => .error e
    | .ok (f, st1) =>
      if !f then .ok (false, st1)
      else op.opRest.check st1 (.array (arr.take i ++ arr.drop (i + 1)))
  | none =>
    -- not found, default to false; the rest sub-op gets the original node
    match op.opHas.check st (.bool false) with
    | .error e => .error e
    | .ok (f, st1) =>
      if !f then .ok (false, st1)
      else op.opRest.check st1 n

/-- Construct of `opArrHasKeyword`: reads the flag, builds the remainder and
returns it as-is either way (re-synthesizing the removed marker is an
acknowledged incomplete reverse path in the source). -/
def opArrHasKeyword.Construct (op : opArrHasKeyword) (st : State) (n : Node) : Res Node :=
  match op.opHas.construct st .null with
  | .error e => .error e
  | .ok (v, st1) =>
    match v with
    | .bool has =>
      match op.opRest.construct st1 n with
      | .error e => .error e
      | .ok (n1, st2) =>
        if !has then .ok (n1, st2)
        else .ok (n1, st2)
    | _ => .error "unexpected type: expected a Bool"

/-! ### Chain encoder/decoder (`opArrToChain`) -/

/-- The chain encoder/decoder operator. -/
structure opArrToChain where
  opMods : Op
  opType : Op

/-- Check of `opArrToChain`: a deliberately unimplemented reverse path in the
source (`var mods nodes.Array` is declared and never filled, with a TODO):
it delegates the whole node to the type sub-pattern and the nil (empty)
modifier array to the modifier sub-pattern. -/
def opArrToChain.Check (op : opArrToChain) (st : State) (n : Node) : Res Bool :=
  let mods : List Node := []
  match op.opType.check st n with
  | .error e => .error e
  | .ok (ok1, st1) =>
    if !ok1 then .ok (false, st1)
    else op.opMods.check st1 (.array mods)

/-- The for-loop of `opArrToChain.Construct`: wrap the running node with each
modifier in list order, erroring if a modifier already carries "Type". -/
def chainFold : List Node → Node → Except String Node
  | [], typ => .ok typ
  | nd :: rest, typ =>
    match nd with
    | .obj mod =>
      if (getField mod "Type").isSome then
        .error "unexpected field in modifier: Type"
      else chainFold rest (.obj (setField mod "Type" typ))
    | _ => .error "unexpected type: expected an Object"

/-- Construct of `opArrToChain`: loads the modifier array and the type node
from the sub-patterns, then chains the modifiers around the type. -/
def opArrToChain.Construct (op : opArrToChain) (st : State) (n : Node) : Res Node :=
  match op.opMods.construct st .null with
  | .error e => .error e
  | .ok (nd, st1) =>
    match nd with
    | .array mods =>
      match op.opType.construct st1 n with
      | .error e => .error e
      | .ok (typ, st2) =>
        match chainFold mods typ with
        | .error e => .error e
        | .ok r => .ok (r, st2)
    | _ => .error "unexpected type: expected an Array"

/-! ### Nil-compactor (`dropNils`) -/

/-- The nil-compactor operator. -/
structure dropNils where
  op : Op

/-- Check of `dropNils`: a non-Array, non-nil input is a mismatch
(`!ok && n != nil`); a nil input falls through with the nil slice, so the
sub-operation receives an empty array; otherwise nil elements are removed. -/
def dropNils.Check (o : dropNils) (st : State) (n : Node) : Res Bool :=
  match n with
  | .array arr =>
    o.op.check st (.array (arr.filter fun e => match e with | .null => false | _ => true))
  | .null => o.op.check st (.array [])
  | _ => .ok (false, st)

/-- Construct of `dropNils`: pure passthrough (nil values are not restored). -/
def dropNils.Construct (o : dropNils) (st : State) (n : Node) : Res Node :=
  o.op.construct st n

/-! ### Trivia relocator (`opMoveTrivias`) -/

/-- The fixed table `triviaField`: node type to the array field that receives
relocated trivia. -/
def triviaField (typ : String) : Option String :=
  if typ = "Block" then some "Statements"
  else if typ = "CompilationUnit" then some "Members"
  else none

/-- Suffix test on strings (`strings.HasSuffix`), implemented over the
character lists so that it evaluates by kernel reduction. -/
def strEndsWith (s post : String) : Bool :=
  post.data.isSuffixOf s.data

/-- Field-name condition of the relocation loop in `opMoveTrivias.Check`:
`ReturnType`, or a name ending in `Token` or `Keyword`. -/
def isTokenKey (key : String) : Bool :=
  key = "ReturnType" || strEndsWith key "Token" || strEndsWith key "Keyword"

/-- The relocation loop of `opMoveTrivias.Check`, one field at a time (the Go
code ranges over the map, here over the association list in order): a
token/keyword field currently holding a `uast:Group` with a "Nodes" array is
replaced by the first non-trivia element of that array; elements before it
are appended to the held leading list and elements after it are prepended to
the held trailing list.  If no non-trivia element exists the whole array is
treated as leading content and the field becomes nil.  Returns the updated
fields, the held lists and the did-anything-change flag. -/
def moveTokenGroups : Fields → List Node → List Node →
    Fields × List Node × List Node × Bool
  | [], leading, trailing => ([], leading, trailing, false)
  | (key, sub) :: rest, leading, trailing =>
    if isTokenKey key && (uast.TypeOf sub = typeGroup : Bool) then
      match getField (objFields sub) "Nodes" with
      | some (.array arr) =>
        let step : Node × List Node × List Node :=
          match firstWithType arr (fun typ => !strEndsWith typ "Trivia") with
          | none => (Node.null, leading ++ arr, trailing)
          | some ind => (arr.getD ind .null, leading ++ arr.take ind, arr.drop (ind + 1) ++ trailing)
        let r := moveTokenGroups rest step.2.1 step.2.2
        ((key, step.1) :: r.1, r.2.1, r.2.2.1, true)
      | _ =>
        -- the Group has no "Nodes" array: the loop continues unchanged
        let r := moveTokenGroups rest leading trailing
        ((key, sub) :: r.1, r.2.1, r.2.2.1, r.2.2.2)
    else
      let r := moveTokenGroups rest leading trailing
      ((key, sub) :: r.1, r.2.1, r.2.2.1, r.2.2.2)

/-- The trivia relocator operator. -/
structure opMoveTrivias where
  sub : Op

/-- Check of `opMoveTrivias`: remove Leading/TrailingTrivia array fields and
hold their contents; unwrap Groups sitting in token/keyword fields; then
either report no-match (nothing held, nothing changed), delegate the node
with the trivia fields removed, splice the held lists around a designated
target field, or wrap the node into a fresh `uast:Group`. -/
def opMoveTrivias.Check (op : opMoveTrivias) (st : State) (n : Node) : Res Bool :=
  match n with
  | .obj obj0 =>
    let lead0 := asArr? (getFieldD obj0 "LeadingTrivia")
    let trail0 := asArr? (getFieldD obj0 "TrailingTrivia")
    let hasTrivia := lead0.isSome || trail0.isSome
    -- wipe the trivia fields from (a clone of) the node
    let obj1 := if hasTrivia
      then removeField (removeField obj0 "LeadingTrivia") "TrailingTrivia"
      else obj0
    let r := moveTokenGroups obj1 (lead0.getD []) (trail0.getD [])
    let obj2 := r.1
    let leading := r.2.1
    let trailing := r.2.2.1
    let modified := hasTrivia || r.2.2.2
    if leading.isEmpty && trailing.isEmpty then
      if !modified then .ok (false, st) -- unmodified
      else op.sub.check st (.obj obj2)  -- removed the trivia fields
    else
      match triviaField (uast.TypeOf (.obj obj2)) with
      | some field =>
        -- instead of wrapping the node, join trivias to a specified field
        match getField obj2 field with
        | some (.array old) =>
          op.sub.check st (.obj (setField obj2 field (.array (leading ++ old ++ trailing))))
        | _ => .error ("expected " ++ field ++ " field to be an array")
      | none =>
        -- wrap the node into a uast:Group
        op.sub.check st (.obj [(uast.KeyType, .str typeGroup),
                               ("Nodes", .array (leading ++ [Node.obj obj2] ++ trailing))])
  | _ => .ok (false, st)

/-- Construct of `opMoveTrivias`: reversal is not implemented; passthrough. -/
def opMoveTrivias.Construct (op : opMoveTrivias) (st : State) (n : Node) : Res Node :=
  op.sub.construct st n

/-! ### Group merger (`opMergeGroups`) -/

/-- The group merger operator. -/
structure opMergeGroups where
  sub : Op

/-- The `checkGroup` branch: if the Group's "Nodes" array holds a
FunctionGroup, drop the Group and splice the surrounding items around the
FunctionGroup's own "Nodes"; no FunctionGroup means no-match; a non-array
"Nodes" (of either object) is an invariant error. -/
def opMergeGroups.checkGroup (op : opMergeGroups) (st : State) (group : Fields) : Res Bool :=
  match getField group "Nodes" with
  | some (.array arr) =>
    match firstWithType arr (fun typ => typ = typeFuncGroup) with
    | none => .ok (false, st)
    | some ind =>
      let leading := arr.take ind
      -- the element's type was just matched, so it is an object
      let fgroup := objFields (arr.getD ind .null)
      let trailing := arr.drop (ind + 1)
      match getField fgroup "Nodes" with
      | some (.array inner) =>
        op.sub.check st (.obj (setField fgroup "Nodes"
          (.array (leading ++ inner ++ trailing))))
      | _ => .error "expected an array in Group.Nodes"
  | _ => .error "expected an array in Group.Nodes"

/-- Body of the `checkFuncGroup` loop, one entry of the FunctionGroup's
"Nodes" array at a time (the Go loop edits the array in place with an index;
the net effect per original element is reproduced by this recursion): nil
entries are dropped, and an entry that is itself an array has the first
nested `uast:Group` element replaced by that Group's own "Nodes" contents.
Returns the rewritten list and the modified flag. -/
def checkFuncNodes : List Node → Except String (List Node × Bool)
  | [] => .ok ([], false)
  | v :: rest =>
    match v with
    | .null =>
      -- clean nil entries from the group array
      match checkFuncNodes rest with
      | .error e => .error e
      | .ok (out, _) => .ok (out, true)
    | .array arr2 =>
      match firstWithType arr2 (fun typ => typ = typeGroup) with
      | none =>
        match checkFuncNodes rest with
        | .error e => .error e
        | .ok (out, m) => .ok (v :: out, m)
      | some ind =>
        -- the element's type was just matched, so it is an object
        match getField (objFields (arr2.getD ind .null)) "Nodes" with
        | some (.array arr3) =>
          match checkFuncNodes rest with
          | .error e => .error e
          | .ok (out, _) =>
            .ok (.array (arr2.take ind ++ arr3 ++ arr2.drop (ind + 1)) :: out, true)
        | _ => .error "expected an array in Group.Nodes"
    | _ =>
      match checkFuncNodes rest with
      | .error e => .error e
      | .ok (out, m) => .ok (v :: out, m)

/-- The `checkFuncGroup` branch: compact nil entries out of the
FunctionGroup's "Nodes" and flatten nested Groups inside sub-array entries;
no change at all means no-match. -/
def opMergeGroups.checkFuncGroup (op : opMergeGroups) (st : State) (fgroup : Fields) : Res Bool :=
  match getField fgroup "Nodes" with
  | some (.array arr) =>
    match checkFuncNodes arr with
    | .error e => .error e
    | .ok (out, modified) =>
      if !modified then .ok (false, st)
      else op.sub.check st (.obj (setField fgroup "Nodes" (.array out)))
  | _ => .error "expected an array in FuncGroup.Nodes"

/-- Check of `opMergeGroups`: dispatch on the type discriminator. -/
def opMergeGroups.Check (op : opMergeGroups) (st : State) (n : Node) : Res Bool :=
  match n with
  | .obj group =>
    if uast.TypeOf (.obj group) = typeGroup then op.checkGroup st group
    else if uast.TypeOf (.obj group) = typeFuncGroup then op.checkFuncGroup st group
    else .ok (false, st)
  | _ => .ok (false, st)

/-- Construct of `opMergeGroups`: reversal is not implemented; passthrough. -/
def opMergeGroups.Construct (op : opMergeGroups) (st : State) (n : Node) : Res Node :=
  op.sub.construct st n

/-! ### Vocabulary used to state the claims

These functions re-express single steps of the loops above so the theorems
can describe outputs without repeating whole loop bodies; the lemmas below
prove that the loops agree with them. -/

/-- Discriminator: is the node an Object. -/
def isObjNode : Node → Bool
  | .obj _ => true
  | _ => false

/-- Discriminator: is the node nil. -/
def isNilNode : Node → Bool
  | .null => true
  | _ => false

/-- Does a modifier object already carry the chain field "Type". -/
def hasTypeField : Node → Bool
  | .obj fs => (getField fs "Type").isSome
  | _ => false

/-- Does an optional field value hold an array. -/
def isSomeArray : Option Node → Bool
  | some (.array _) => true
  | _ => false

/-- The "Nodes" array of a Group held in a token/keyword field, if the field
qualifies for relocation (`moveTokenGroups`' guard for one field). -/
def tokenGroupArr (kv : String × Node) : Option (List Node) :=
  if isTokenKey kv.1 && (uast.TypeOf kv.2 = typeGroup : Bool) then
    match getField (objFields kv.2) "Nodes" with
    | some (.array arr) => some arr
    | _ => none
  else none

/-- Replacement of one field by the relocation loop: a qualifying field
becomes the first non-trivia element of the held Group's "Nodes" (nil if
there is none); any other field is untouched. -/
def fieldRepl (kv : String × Node) : String × Node :=
  match tokenGroupArr kv with
  | none => kv
  | some arr =>
    match firstWithType arr (fun typ => !strEndsWith typ "Trivia") with
    | none => (kv.1, Node.null)
    | some ind => (kv.1, arr.getD ind .null)

/-- Leading content contributed by one field in the relocation loop. -/
def fieldLead (kv : String × Node) : List Node :=
  match tokenGroupArr kv with
  | none => []
  | some arr =>
    match firstWithType arr (fun typ => !strEndsWith typ "Trivia") with
    | none => arr
    | some ind => arr.take ind

/-- Trailing content contributed by one field in the relocation loop. -/
def fieldTrail (kv : String × Node) : List Node :=
  match tokenGroupArr kv with
  | none => []
  | some arr =>
    match firstWithType arr (fun typ => !strEndsWith typ "Trivia") with
    | none => []
    | some ind => arr.drop (ind + 1)

/-- Survivor filter of `checkFuncGroup`'s nil compaction. -/
def notNilEntry : Node → Bool
  | .null => false
  | _ => true

/-- One entry rewrite of `checkFuncGroup`: an array entry has its first
nested `uast:Group` element replaced in place by that Group's "Nodes"
contents; everything else is untouched. -/
def spliceEntry (v : Node) : Node :=
  match v with
  | .array a2 =>
    match firstWithType a2 (fun typ => typ = typeGroup) with
    | none => v
    | some ind =>
      match getField (objFields (a2.getD ind .null)) "Nodes" with
      | some (.array a3) => .array (a2.take ind ++ a3 ++ a2.drop (ind + 1))
      | _ => v
  | _ => v

/-- Does `checkFuncGroup` change this entry (a nil to drop, or an array
holding a nested Group to flatten). -/
def entryChanges : Node → Bool
  | .null => true
  | .array a2 => (firstWithType a2 (fun typ => typ = typeGroup)).isSome
  | _ => false

/-- Absence of the invariant error for one entry: if the entry's first
nested Group exists, its "Nodes" field holds an array. -/
def entryOk : Node → Bool
  | .array a2 =>
    match firstWithType a2 (fun typ => typ = typeGroup) with
    | none => true
    | some ind => isSomeArray (getField (objFields (a2.getD ind .null)) "Nodes")
  | _ => true

/-! ### Concrete nodes used by witnesses and counterexamples -/

/-- A comment trivia node. -/
def trivC : Node := .obj [(uast.KeyType, .str "SingleLineCommentTrivia")]

/-- A second comment trivia node. -/
def trivC2 : Node := .obj [(uast.KeyType, .str "MultiLineCommentTrivia")]

/-- A statement node. -/
def stmtS1 : Node := .obj [(uast.KeyType, .str "ExpressionStatement")]

/-- The "ref" modifier wrapper object (no "Type" field yet). -/
def refMod : Node := .obj [(uast.KeyType, .str "RefKeyword")]

/-- The "out" modifier wrapper object (no "Type" field yet). -/
def outMod : Node := .obj [(uast.KeyType, .str "OutKeyword")]

/-- The terminal payload of the chain scenarios. -/
def intNode : Node := .obj [(uast.KeyType, .str "Int")]

/-- Scenario 2 input: a Block with held leading, trailing and one statement. -/
def blockFs : Fields :=
  [(uast.KeyType, .str "Block"),
   ("LeadingTrivia", .array [trivC]),
   ("TrailingTrivia", .array [trivC2]),
   ("Statements", .array [stmtS1])]

/-- An identifier token node (type not ending in "Trivia"). -/
def identTok : Node := .obj [(uast.KeyType, .str "IdentifierToken")]

/-- A node whose token field holds an already-relocated Group: trivia will be
extracted from the Group, not from Leading/TrailingTrivia fields. -/
def tokFs : Fields :=
  [(uast.KeyType, .str "X"),
   ("FooToken", .obj [(uast.KeyType, .str typeGroup),
                      ("Nodes", .array [trivC, identTok])])]

/-- A marker keyword element for the keyword extractor. -/
def kwParams : Node := .obj [(uast.KeyType, .str "ParamsKeyword")]

/-- A canonical alias node (content irrelevant to the merger). -/
def aliasN : Node := .obj [(uast.KeyType, .str "uast:Alias")]

/-- A FunctionGroup whose "Nodes" holds one alias. -/
def fgNode : Node :=
  .obj [(uast.KeyType, .str typeFuncGroup), ("Nodes", .array [aliasN])]

/-- A generic wrapper holding two comment nodes. -/
def groupN : Node :=
  .obj [(uast.KeyType, .str typeGroup), ("Nodes", .array [trivC, trivC2])]

/-! ### Sanity checks of the embedding on concrete inputs -/

example : getField [("a", Node.null), ("b", .bool true)] "b" = some (.bool true) := rfl
example : setField [("a", Node.null)] "c" (.int 3) = [("a", Node.null), ("c", .int 3)] := rfl
example : uast.TypeOf (.obj [(uast.KeyType, .str "Block")]) = "Block" := rfl
example : firstWithType [.null, .obj [(uast.KeyType, .str "A")]] (fun t => t = "A") = some 1 := rfl

example : opMoveTrivias.Check ⟨opVar "g"⟩ [] (.obj blockFs)
    = .ok (true, [("g", .obj [(uast.KeyType, .str "Block"),
        ("Statements", .array [trivC, stmtS1, trivC2])])]) := rfl

example : opMoveTrivias.Check ⟨opVar "g"⟩ []
      (.obj [(uast.KeyType, .str "X"), ("LeadingTrivia", .array [trivC])])
    = .ok (true, [("g", .obj [(uast.KeyType, .str typeGroup),
        ("Nodes", .array [trivC, .obj [(uast.KeyType, .str "X")]])])]) := rfl

example : opArrHasKeyword.Check ⟨"ParamsKeyword", anyOp, anyOp⟩ [] (.bool true)
    = .ok (true, []) := rfl

example : opArrToChain.Construct ⟨opConst (.array [refMod, outMod]), opConst intNode⟩ [] .null
    = .ok (.obj [(uast.KeyType, .str "OutKeyword"),
        ("Type", .obj [(uast.KeyType, .str "RefKeyword"), ("Type", intNode)])], []) := rfl

/-! ### Basic lemmas about the field and index helpers -/

theorem getField_setField_self (fs : Fields) (k : String) (v : Node) :
    getField (setField fs k v) k = some v := by
  induction fs with
  | nil => simp [setField, getField]
  | cons kv rest ih =>
    obtain ⟨k1, v1⟩ := kv
    by_cases h : k1 = k
    · simp [setField, getField, h]
    · simp [setField, getField, h, ih]

theorem getField_setField_ne (fs : Fields) (k k2 : String) (v : Node) (h : k ≠ k2) :
    getField (setField fs k v) k2 = getField fs k2 := by
  induction fs with
  | nil => simp [setField, getField, h]
  | cons kv rest ih =>
    obtain ⟨k1, v1⟩ := kv
    by_cases h1 : k1 = k
    · subst h1
      simp [setField, getField, h]
    · simp [setField, getField, h1, ih]

theorem mem_of_mem_removeField {fs : Fields} {key : String} {kv : String × Node}
    (h : kv ∈ removeField fs key) : kv ∈ fs := by
  induction fs with
  | nil => simp [removeField] at h
  | cons kv1 rest ih =>
    obtain ⟨k1, v1⟩ := kv1
    by_cases h1 : k1 = key
    · simp only [removeField, if_pos h1] at h
      exact List.mem_cons_of_mem _ (ih h)
    · simp only [removeField, if_neg h1] at h
      rcases List.mem_cons.1 h with h2 | h2
      · exact h2 ▸ List.mem_cons_self _ _
      · exact List.mem_cons_of_mem _ (ih h2)

theorem firstIdxP_eq_none {p : Node → Bool} {l : List Node}
    (h : ∀ x ∈ l, p x = false) : firstIdxP p l = none := by
  induction l with
  | nil => rfl
  | cons x rest ih =>
    have hx := h x (List.mem_cons_self _ _)
    have hr := ih fun y hy => h y (List.mem_cons_of_mem _ hy)
    simp [firstIdxP, hx, hr]

theorem firstIdxP_eq_some {p : Node → Bool} {l : List Node} {i : Nat}
    (hi : i < l.length) (hp : p (l.getD i .null) = true)
    (hb : ∀ j, j < i → p (l.getD j .null) = false) :
    firstIdxP p l = some i := by
  induction l generalizing i with
  | nil => simp at hi
  | cons x rest ih =>
    cases i with
    | zero =>
      simp only [List.getD_cons_zero] at hp
      simp [firstIdxP, hp]
    | succ i =>
      have hx : p x = false := by
        have := hb 0 (Nat.succ_pos _)
        simpa using this
      have hi2 : i < rest.length := Nat.lt_of_succ_lt_succ hi
      have hp2 : p (rest.getD i .null) = true := by
        simpa [List.getD_cons_succ] using hp
      have hb2 : ∀ j, j < i → p (rest.getD j .null) = false := by
        intro j hj
        have := hb (j + 1) (Nat.succ_lt_succ hj)
        simpa [List.getD_cons_succ] using this
      simp [firstIdxP, hx, ih hi2 hp2 hb2]

/-! ### Characterization of the relocation loop -/

theorem moveTokenGroups_eq (fs : Fields) (l t : List Node) :
    moveTokenGroups fs l t =
      (fs.map fieldRepl,
       l ++ (fs.map fieldLead).flatten,
       ((fs.map fieldTrail).reverse).flatten ++ t,
       fs.any fun kv => (tokenGroupArr kv).isSome) := by
  induction fs generalizing l t with
  | nil => simp [moveTokenGroups]
  | cons kv rest ih =>
    obtain ⟨key, sub⟩ := kv
    by_cases hc : (isTokenKey key && (uast.TypeOf sub = typeGroup : Bool)) = true
    · obtain ⟨hk, ht⟩ : isTokenKey key = true ∧ uast.TypeOf sub = typeGroup := by
        simpa [Bool.and_eq_true, decide_eq_true_iff] using hc
      rcases hg : getField (objFields sub) "Nodes" with _ | v
      · simp [moveTokenGroups, tokenGroupArr, fieldRepl, fieldLead, fieldTrail,
              hk, ht, hg, ih, List.flatten_append, List.append_assoc]
      · cases v with
        | array arr =>
          rcases hf : firstWithType arr (fun typ => !strEndsWith typ "Trivia") with _ | ind
          · simp [moveTokenGroups, tokenGroupArr, fieldRepl, fieldLead, fieldTrail,
                  hk, ht, hg, hf, ih, List.flatten_append, List.append_assoc]
          · simp [moveTokenGroups, tokenGroupArr, fieldRepl, fieldLead, fieldTrail,
                  hk, ht, hg, hf, ih, List.flatten_append, List.append_assoc]
        | null =>
          simp [moveTokenGroups, tokenGroupArr, fieldRepl, fieldLead, fieldTrail,
                hk, ht, hg, ih, List.flatten_append, List.append_assoc]
        | bool b =>
          simp [moveTokenGroups, tokenGroupArr, fieldRepl, fieldLead, fieldTrail,
                hk, ht, hg, ih, List.flatten_append, List.append_assoc]
        | int i =>
          simp [moveTokenGroups, tokenGroupArr, fieldRepl, fieldLead, fieldTrail,
                hk, ht, hg, ih, List.flatten_append, List.append_assoc]
        | uint u =>
          simp [moveTokenGroups, tokenGroupArr, fieldRepl, fieldLead, fieldTrail,
                hk, ht, hg, ih, List.flatten_append, List.append_assoc]
        | float f =>
          simp [moveTokenGroups, tokenGroupArr, fieldRepl, fieldLead, fieldTrail,
                hk, ht, hg, ih, List.flatten_append, List.append_assoc]
        | str s =>
          simp [moveTokenGroups, tokenGroupArr, fieldRepl, fieldLead, fieldTrail,
                hk, ht, hg, ih, List.flatten_append, List.append_assoc]
        | obj fs2 =>
          simp [moveTokenGroups, tokenGroupArr, fieldRepl, fieldLead, fieldTrail,
                hk, ht, hg, ih, List.flatten_append, List.append_assoc]
    · have hc2 : ¬(isTokenKey key = true ∧ uast.TypeOf sub = typeGroup) := by
        simpa [Bool.and_eq_true, decide_eq_true_iff] using hc
      simp [moveTokenGroups, tokenGroupArr, fieldRepl, fieldLead, fieldTrail,
            hc, hc2, ih, List.flatten_append, List.append_assoc]

theorem opMoveTrivias_check_cases (sub : Op) (st : State) (fs obj1 obj2 : Fields)
    (L T : List Node) (modified : Bool)
    (h1 : obj1 = if (asArr? (getFieldD fs "LeadingTrivia")).isSome ||
                    (asArr? (getFieldD fs "TrailingTrivia")).isSome
          then removeField (removeField fs "LeadingTrivia") "TrailingTrivia" else fs)
    (h2 : obj2 = obj1.map fieldRepl)
    (h3 : L = (asArr? (getFieldD fs "LeadingTrivia")).getD [] ++ (obj1.map fieldLead).flatten)
    (h4 : T = ((obj1.map fieldTrail).reverse).flatten ++
              (asArr? (getFieldD fs "TrailingTrivia")).getD [])
    (h5 : modified = (((asArr? (getFieldD fs "LeadingTrivia")).isSome ||
                       (asArr? (getFieldD fs "TrailingTrivia")).isSome) ||
                      obj1.any fun kv => (tokenGroupArr kv).isSome)) :
    opMoveTrivias.Check ⟨sub⟩ st (.obj fs)
      = if L.isEmpty && T.isEmpty then
          (if !modified then .ok (false, st) else sub.check st (.obj obj2))
        else
          match triviaField (uast.TypeOf (.obj obj2)) with
          | some field =>
            match getField obj2 field with
            | some (.array old) =>
              sub.check st (.obj (setField obj2 field (.array (L ++ old ++ T))))
            | _ => .error ("expected " ++ field ++ " field to be an array")
          | none =>
            sub.check st (.obj [(uast.KeyType, .str typeGroup),
              ("Nodes", .array (L ++ [Node.obj obj2] ++ T))]) := by
  subst h1 h2 h3 h4 h5
  simp only [opMoveTrivias.Check, moveTokenGroups_eq]

theorem map_fieldRepl_of_none {fs : Fields}
    (h : ∀ kv ∈ fs, tokenGroupArr kv = none) : fs.map fieldRepl = fs := by
  induction fs with
  | nil => rfl
  | cons kv rest ih =>
    have h1 := h kv (List.mem_cons_self _ _)
    have h2 := ih fun x hx => h x (List.mem_cons_of_mem _ hx)
    simp [fieldRepl, h1, h2]

theorem map_fieldLead_of_none {fs : Fields}
    (h : ∀ kv ∈ fs, tokenGroupArr kv = none) : (fs.map fieldLead).flatten = [] := by
  induction fs with
  | nil => rfl
  | cons kv rest ih =>
    have h1 := h kv (List.mem_cons_self _ _)
    have h2 := ih fun x hx => h x (List.mem_cons_of_mem _ hx)
    simp [fieldLead, h1, h2]

theorem map_fieldTrail_of_none {fs : Fields}
    (h : ∀ kv ∈ fs, tokenGroupArr kv = none) : ((fs.map fieldTrail).reverse).flatten = [] := by
  induction fs with
  | nil => rfl
  | cons kv rest ih =>
    have h1 := h kv (List.mem_cons_self _ _)
    have h2 := ih fun x hx => h x (List.mem_cons_of_mem _ hx)
    simp [fieldTrail, h1, h2]

theorem any_tokenGroupArr_of_none {fs : Fields}
    (h : ∀ kv ∈ fs, tokenGroupArr kv = none) :
    (fs.any fun kv => (tokenGroupArr kv).isSome) = false := by
  induction fs with
  | nil => rfl
  | cons kv rest ih =>
    have h1 := h kv (List.mem_cons_self _ _)
    have h2 := ih fun x hx => h x (List.mem_cons_of_mem _ hx)
    simp [h1, h2]

theorem tokenGroupArr_eq_none {kv : String × Node}
    (h : isTokenKey kv.1 = true → uast.TypeOf kv.2 ≠ typeGroup) :
    tokenGroupArr kv = none := by
  by_cases hk : isTokenKey kv.1 = true
  · simp [tokenGroupArr, hk, h hk]
  · simp [tokenGroupArr, hk]

/-! ### Characterization of the group-merger loops -/

theorem isSomeArray_iff {o : Option Node} :
    isSomeArray o = true ↔ ∃ a, o = some (.array a) := by
  cases o with
  | none => simp [isSomeArray]
  | some v => cases v <;> simp [isSomeArray]

theorem entryOk_of_not_changes {v : Node} (h : entryChanges v = false) :
    entryOk v = true := by
  cases v with
  | array a2 =>
    rcases hf : firstWithType a2 (fun typ => typ = typeGroup) with _ | ind
    · simp [entryOk, hf]
    · simp [entryChanges, hf] at h
  | null => simp [entryChanges] at h
  | bool b => simp [entryOk]
  | int i => simp [entryOk]
  | uint u => simp [entryOk]
  | float f => simp [entryOk]
  | str s => simp [entryOk]
  | obj fs => simp [entryOk]

theorem checkFuncNodes_eq : ∀ (arr : List Node),
    (∀ v ∈ arr, entryOk v = true) →
    checkFuncNodes arr = .ok ((arr.filter notNilEntry).map spliceEntry, arr.any entryChanges) := by
  intro arr
  induction arr with
  | nil => intro _; rfl
  | cons v rest ih =>
    intro h
    have hv := h v (List.mem_cons_self _ _)
    have hr := ih fun x hx => h x (List.mem_cons_of_mem _ hx)
    cases v with
    | null => simp [checkFuncNodes, hr, notNilEntry, entryChanges]
    | array a2 =>
      rcases hf : firstWithType a2 (fun typ => typ = typeGroup) with _ | ind
      · simp [checkFuncNodes, hf, hr, notNilEntry, spliceEntry, entryChanges]
      · have h2 : isSomeArray (getField (objFields (a2.getD ind .null)) "Nodes") = true := by
          simpa [entryOk, hf] using hv
        obtain ⟨a3, hg⟩ := isSomeArray_iff.1 h2
        simp only [List.getD_eq_getElem?_getD] at hg
        simp [checkFuncNodes, hf, hg, hr, notNilEntry, spliceEntry, entryChanges]
    | bool b => simp [checkFuncNodes, hr, notNilEntry, spliceEntry, entryChanges]
    | int i => simp [checkFuncNodes, hr, notNilEntry, spliceEntry, entryChanges]
    | uint u => simp [checkFuncNodes, hr, notNilEntry, spliceEntry, entryChanges]
    | float f => simp [checkFuncNodes, hr, notNilEntry, spliceEntry, entryChanges]
    | str s => simp [checkFuncNodes, hr, notNilEntry, spliceEntry, entryChanges]
    | obj fs => simp [checkFuncNodes, hr, notNilEntry, spliceEntry, entryChanges]

theorem chainFold_error : ∀ (ms : List Node) (typ : Node),
    (∀ m ∈ ms, isObjNode m = true) →
    (∃ m ∈ ms, hasTypeField m = true) →
    chainFold ms typ = .error "unexpected field in modifier: Type" := by
  intro ms
  induction ms with
  | nil =>
    intro typ _ hsome
    simp at hsome
  | cons m rest ih =>
    intro typ hobj hsome
    have hm := hobj m (List.mem_cons_self _ _)
    cases m with
    | obj fs2 =>
      by_cases hty : (getField fs2 "Type").isSome = true
      · simp [chainFold, hty]
      · rcases hsome with ⟨m2, hm2, hty2⟩
        rcases List.mem_cons.1 hm2 with h | h
        · subst h
          exact absurd (by simpa [hasTypeField] using hty2) hty
        · have hrec := ih (.obj (setField fs2 "Type" typ))
            (fun x hx => hobj x (List.mem_cons_of_mem _ hx)) ⟨m2, h, hty2⟩
          simp [chainFold, hty, hrec]
    | null => simp [isObjNode] at hm
    | bool b => simp [isObjNode] at hm
    | int i => simp [isObjNode] at hm
    | uint u => simp [isObjNode] at hm
    | float f => simp [isObjNode] at hm
    | str s => simp [isObjNode] at hm
    | array a => simp [isObjNode] at hm

/-! ### Claim theorems -/

/-- C2: for every Array input and configured keyword, if no element is an
Object whose type discriminator equals the keyword, `opArrHasKeyword.Check`
requires the flag sub-pattern to match false and the remainder sub-pattern to
match the original array unchanged; if such an element exists, with i the
leftmost index, the flag sub-pattern must match true and the remainder
sub-pattern the array with index i removed and the order of the rest
preserved; the overall match succeeds iff both sub-matches succeed. -/
theorem claim2_arr_has_keyword (op : opArrHasKeyword) (st : State) (arr : List Node) :
    ((∀ x ∈ arr, isKeywordNode op.keyword x = false) →
      (op.Check st (.array arr)
          = match op.opHas.check st (.bool false) with
            | .error e => .error e
            | .ok (f, st1) =>
              if !f then .ok (false, st1) else op.opRest.check st1 (.array arr))
      ∧ ∀ st2, (op.Check st (.array arr) = .ok (true, st2) ↔
          ∃ st1, op.opHas.check st (.bool false) = .ok (true, st1) ∧
                 op.opRest.check st1 (.array arr) = .ok (true, st2)))
    ∧ ∀ i, i < arr.length → isKeywordNode op.keyword (arr.getD i .null) = true →
        (∀ j, j < i → isKeywordNode op.keyword (arr.getD j .null) = false) →
        (op.Check st (.array arr)
            = match op.opHas.check st (.bool true) with
              | .error e => .error e
              | .ok (f, st1) =>
                if !f then .ok (false, st1)
                else op.opRest.check st1 (.array (arr.take i ++ arr.drop (i + 1))))
        ∧ ∀ st2, (op.Check st (.array arr) = .ok (true, st2) ↔
            ∃ st1, op.opHas.check st (.bool true) = .ok (true, st1) ∧
                   op.opRest.check st1 (.array (arr.take i ++ arr.drop (i + 1)))
                     = .ok (true, st2)) := by
  constructor
  · intro hnone
    have hidx : findKeywordIdx op.keyword arr = none := firstIdxP_eq_none hnone
    have heq : op.Check st (.array arr)
        = match op.opHas.check st (.bool false) with
          | .error e => .error e
          | .ok (f, st1) =>
            if !f then .ok (false, st1) else op.opRest.check st1 (.array arr) := by
      simp only [opArrHasKeyword.Check, asArr?, Option.getD_some, hidx]
    refine ⟨heq, fun st2 => ?_⟩
    rw [heq]
    rcases hc : op.opHas.check st (.bool false) with e | p
    · simp
    · obtain ⟨f, st1⟩ := p
      cases f <;> simp
  · intro i hi hp hb
    have hidx : findKeywordIdx op.keyword arr = some i := firstIdxP_eq_some hi hp hb
    have heq : op.Check st (.array arr)
        = match op.opHas.check st (.bool true) with
          | .error e => .error e
          | .ok (f, st1) =>
            if !f then .ok (false, st1)
            else op.opRest.check st1 (.array (arr.take i ++ arr.drop (i + 1))) := by
      simp only [opArrHasKeyword.Check, asArr?, Option.getD_some, hidx]
    refine ⟨heq, fun st2 => ?_⟩
    rw [heq]
    rcases hc : op.opHas.check st (.bool true) with e | p
    · simp
    · obtain ⟨f, st1⟩ := p
      cases f <;> simp

/-- Witness for C2 (Scenario 1 analogue): the keyword at index 1 is removed,
the flag pattern binds true and the remainder pattern binds the array minus
the keyword element in original order. -/
theorem claim2_witness :
    opArrHasKeyword.Check ⟨"ParamsKeyword", opVar "has", opVar "rest"⟩ []
        (.array [trivC, kwParams, trivC2])
      = .ok (true, [("has", .bool true), ("rest", .array [trivC, trivC2])]) :=
  (((claim2_arr_has_keyword ⟨"ParamsKeyword", opVar "has", opVar "rest"⟩ []
      [trivC, kwParams, trivC2]).2 1 (by decide) (by decide) (by decide)).1).trans rfl

/-- C8 (code-bug evidence): `opArrHasKeyword.Check` does not fail immediately
on a non-Array input; the guard comparing the zero-value slice with nil is
dead code, so the not-found branch runs, the flag sub-pattern is invoked with
false, and the remainder sub-pattern receives the original non-Array node. -/
theorem claim8_nonarray_not_rejected :
    opArrHasKeyword.Check ⟨"ParamsKeyword", opVar "f", opVar "r"⟩ [] (.bool true)
      = .ok (true, [("f", .bool false), ("r", .bool true)])
    ∧ opArrHasKeyword.Check ⟨"ParamsKeyword", opVar "f", opVar "r"⟩ [] .null
      = .ok (true, [("f", .bool false), ("r", .null)]) :=
  ⟨rfl, rfl⟩

/-- C10: `dropNils.Check` reports no-match for every non-nil, non-Array
input, but a nil input is treated as an empty array and the sub-pattern
receives that empty array. -/
theorem claim10_drop_nils (o : dropNils) (st : State) :
    (∀ n, isNilNode n = false → asArr? n = none → o.Check st n = .ok (false, st))
    ∧ o.Check st .null = o.op.check st (.array []) := by
  constructor
  · intro n hnil harr
    cases n with
    | null => simp [isNilNode] at hnil
    | array a => simp [asArr?] at harr
    | bool b => rfl
    | int i => rfl
    | uint u => rfl
    | float f => rfl
    | str s => rfl
    | obj fs => rfl
  · rfl

/-- Witness for C10: a Bool input mismatches; a nil input delegates the empty
array (here bound by the sub-pattern). -/
theorem claim10_witness :
    dropNils.Check ⟨opVar "r"⟩ [] (.bool true) = .ok (false, [])
    ∧ dropNils.Check ⟨opVar "r"⟩ [] .null = .ok (true, [("r", .array [])]) :=
  ⟨(claim10_drop_nils ⟨opVar "r"⟩ []).1 (.bool true) rfl rfl,
   ((claim10_drop_nils ⟨opVar "r"⟩ []).2).trans rfl⟩

/-- C3 counterexample: `opArrToChain.Construct` on the modifier list
[ref, out] with terminal Int produces out(ref(Int)) — the last modifier
outermost — not the ref(out(Int)) structure the claim asserts. -/
theorem claim3_counterexample :
    opArrToChain.Construct ⟨opConst (.array [refMod, outMod]), opConst intNode⟩ [] .null
      = .ok (.obj [(uast.KeyType, .str "OutKeyword"),
          ("Type", .obj [(uast.KeyType, .str "RefKeyword"), ("Type", intNode)])], [])
    ∧ Node.obj [(uast.KeyType, .str "OutKeyword"),
          ("Type", .obj [(uast.KeyType, .str "RefKeyword"), ("Type", intNode)])]
      ≠ .obj [(uast.KeyType, .str "RefKeyword"),
          ("Type", .obj [(uast.KeyType, .str "OutKeyword"), ("Type", intNode)])] := by
  refine ⟨rfl, ?_⟩
  simp [uast.KeyType]

/-- C3 (amended): iterating the modifier list in order and re-pointing the
running value at each step makes the first modifier the innermost wrapper:
the list [ref, out] around Int encodes to out(ref(Int)), each wrapper holding
the previously accumulated node under its "Type" field. -/
theorem claim3_amended :
    opArrToChain.Construct ⟨opConst (.array [refMod, outMod]), opConst intNode⟩ [] .null
      = .ok (.obj [(uast.KeyType, .str "OutKeyword"),
          ("Type", .obj [(uast.KeyType, .str "RefKeyword"), ("Type", intNode)])], []) := rfl

/-- C4 counterexample: encoding one modifier layer and decoding it does not
recover the pair — `opArrToChain.Check` is an unimplemented reverse path that
binds the whole chain as the terminal and an empty modifier list. -/
theorem claim4_counterexample :
    opArrToChain.Construct ⟨opVar "mods", opVar "type"⟩
        [("mods", .array [refMod]), ("type", intNode)] .null
      = .ok (.obj [(uast.KeyType, .str "RefKeyword"), ("Type", intNode)],
             [("mods", .array [refMod]), ("type", intNode)])
    ∧ opArrToChain.Check ⟨opVar "mods", opVar "type"⟩ []
        (.obj [(uast.KeyType, .str "RefKeyword"), ("Type", intNode)])
      = .ok (true, [("type", .obj [(uast.KeyType, .str "RefKeyword"), ("Type", intNode)]),
                    ("mods", .array [])])
    ∧ Node.array [] ≠ .array [refMod] := by
  refine ⟨rfl, rfl, ?_⟩
  simp

/-- C4 (amended): `opArrToChain.Check` always binds the whole input as the
terminal and an empty modifier list, so decode-then-encode returns the
original nested structure for every chain, and encode-then-decode recovers
the (modifier-list, terminal) pair only for the empty modifier list. -/
theorem claim4_amended :
    (∀ (c : Node) (st : State),
      opArrToChain.Check ⟨opVar "mods", opVar "type"⟩ st c
        = .ok (true, setField (setField st "type" c) "mods" (.array [])))
    ∧ (∀ (c : Node) (st : State),
      opArrToChain.Construct ⟨opVar "mods", opVar "type"⟩
          (setField (setField st "type" c) "mods" (.array [])) .null
        = .ok (c, setField (setField st "type" c) "mods" (.array [])))
    ∧ (∀ t : Node,
      opArrToChain.Construct ⟨opVar "mods", opVar "type"⟩
          [("mods", .array []), ("type", t)] .null
        = .ok (t, [("mods", .array []), ("type", t)])) := by
  refine ⟨fun c st => rfl, fun c st => ?_, fun t => rfl⟩
  have h1 : getField (setField (setField st "type" c) "mods" (.array [])) "mods"
      = some (.array []) := getField_setField_self _ _ _
  have h2 : getField (setField (setField st "type" c) "mods" (.array [])) "type"
      = some c := by
    rw [getField_setField_ne _ _ _ _ (by decide)]
    exact getField_setField_self _ _ _
  simp [opArrToChain.Construct, opVar, h1, h2, chainFold]

/-- C5: for a generic Group whose "Nodes" array holds a FunctionGroup, with i
the leftmost such index, `opMergeGroups.Check` discards the Group and
delegates the FunctionGroup with its "Nodes" replaced by the Group items
before i, then the FunctionGroup's original Nodes, then the Group items after
i; the FunctionGroup's other fields survive.  Without a FunctionGroup the
operator reports no-match. -/
theorem claim5_merge_group (sub : Op) (st : State) (g : Fields) (arr : List Node) :
    (∀ (i : Nat) (fg : Fields) (inner : List Node),
      uast.TypeOf (.obj g) = typeGroup →
      getField g "Nodes" = some (.array arr) →
      i < arr.length →
      arr.getD i .null = .obj fg →
      uast.TypeOf (.obj fg) = typeFuncGroup →
      (∀ j, j < i → uast.TypeOf (arr.getD j .null) ≠ typeFuncGroup) →
      getField fg "Nodes" = some (.array inner) →
      opMergeGroups.Check ⟨sub⟩ st (.obj g)
        = sub.check st (.obj (setField fg "Nodes"
            (.array (arr.take i ++ inner ++ arr.drop (i + 1))))))
    ∧ (uast.TypeOf (.obj g) = typeGroup →
       getField g "Nodes" = some (.array arr) →
       (∀ v ∈ arr, uast.TypeOf v ≠ typeFuncGroup) →
       opMergeGroups.Check ⟨sub⟩ st (.obj g) = .ok (false, st)) := by
  constructor
  · intro i fg inner hty hn hi hd hfgty hb hinner
    have hidx : firstWithType arr (fun typ => typ = typeFuncGroup) = some i := by
      apply firstIdxP_eq_some hi
      · simp only [hd, hfgty]
        simp
      · intro j hj
        exact decide_eq_false (hb j hj)
    simp only [opMergeGroups.Check, hty, if_pos]
    simp only [opMergeGroups.checkGroup, hn, hidx, hd, objFields, hinner]
  · intro hty hn hall
    have hidx : firstWithType arr (fun typ => typ = typeFuncGroup) = none :=
      firstIdxP_eq_none fun v hv => decide_eq_false (hall v hv)
    simp only [opMergeGroups.Check, hty, if_pos]
    simp only [opMergeGroups.checkGroup, hn, hidx]

/-- Witness for C5: a Group holding a comment and a FunctionGroup collapses
into the FunctionGroup with the comment spliced before its contents; a Group
without a FunctionGroup reports no-match. -/
theorem claim5_witness :
    opMergeGroups.Check ⟨opVar "g"⟩ []
        (.obj [(uast.KeyType, .str typeGroup), ("Nodes", .array [trivC, fgNode])])
      = .ok (true, [("g", .obj [(uast.KeyType, .str typeFuncGroup),
          ("Nodes", .array [trivC, aliasN])])])
    ∧ opMergeGroups.Check ⟨opVar "g"⟩ []
        (.obj [(uast.KeyType, .str typeGroup), ("Nodes", .array [trivC])])
      = .ok (false, []) :=
  ⟨(((claim5_merge_group (opVar "g") []
        [(uast.KeyType, .str typeGroup), ("Nodes", .array [trivC, fgNode])]
        [trivC, fgNode]).1 1
        [(uast.KeyType, .str typeFuncGroup), ("Nodes", .array [aliasN])] [aliasN]
        rfl rfl (by decide) rfl rfl (by decide) rfl)).trans rfl,
   ((claim5_merge_group (opVar "g") []
        [(uast.KeyType, .str typeGroup), ("Nodes", .array [trivC])] [trivC]).2
        rfl rfl (by decide))⟩

/-- C6: on a FunctionGroup, `opMergeGroups.Check` drops every null entry of
"Nodes" (order of survivors preserved) and, in every entry that is itself an
array, replaces the first nested Group element in place by that Group's own
"Nodes" contents, leaving other entries untouched; when none of these
changes apply it reports no-match. -/
theorem claim6_merge_func_group (sub : Op) (st : State) (fg : Fields) (arr : List Node) :
    (uast.TypeOf (.obj fg) = typeFuncGroup →
     getField fg "Nodes" = some (.array arr) →
     (∀ v ∈ arr, entryOk v = true) →
     arr.any entryChanges = true →
     opMergeGroups.Check ⟨sub⟩ st (.obj fg)
       = sub.check st (.obj (setField fg "Nodes"
           (.array ((arr.filter notNilEntry).map spliceEntry)))))
    ∧ (uast.TypeOf (.obj fg) = typeFuncGroup →
       getField fg "Nodes" = some (.array arr) →
       arr.any entryChanges = false →
       opMergeGroups.Check ⟨sub⟩ st (.obj fg) = .ok (false, st)) := by
  have hne : typeFuncGroup ≠ typeGroup := by decide
  constructor
  · intro hty hn hok hchg
    have hrun := checkFuncNodes_eq arr hok
    simp only [opMergeGroups.Check, hty, hne, if_neg, if_pos,
      reduceIte]
    simp only [opMergeGroups.checkFuncGroup, hn, hrun, hchg, Bool.not_true,
      Bool.false_eq_true, if_false]
  · intro hty hn hchg
    have hok : ∀ v ∈ arr, entryOk v = true := by
      intro v hv
      apply entryOk_of_not_changes
      have := List.any_eq_false.1 hchg v hv
      simpa using this
    have hrun := checkFuncNodes_eq arr hok
    simp only [opMergeGroups.Check, hty, hne, if_neg, if_pos, reduceIte]
    simp only [opMergeGroups.checkFuncGroup, hn, hrun, hchg, Bool.not_false, if_true]

/-- Witness for C6: a FunctionGroup with a null entry, a modifier-slot array
holding a nested Group, and a plain entry: the null is dropped, the nested
Group is replaced by its contents, the plain entry is untouched; a
FunctionGroup needing no change reports no-match. -/
theorem claim6_witness :
    opMergeGroups.Check ⟨opVar "g"⟩ []
        (.obj [(uast.KeyType, .str typeFuncGroup),
               ("Nodes", .array [.null, .array [groupN], aliasN])])
      = .ok (true, [("g", .obj [(uast.KeyType, .str typeFuncGroup),
          ("Nodes", .array [.array [trivC, trivC2], aliasN])])])
    ∧ opMergeGroups.Check ⟨opVar "g"⟩ []
        (.obj [(uast.KeyType, .str typeFuncGroup), ("Nodes", .array [aliasN])])
      = .ok (false, []) :=
  ⟨((claim6_merge_func_group (opVar "g") []
        [(uast.KeyType, .str typeFuncGroup),
         ("Nodes", .array [.null, .array [groupN], aliasN])]
        [.null, .array [groupN], aliasN]).1
        rfl rfl (by decide) (by decide)).trans rfl,
   ((claim6_merge_func_group (opVar "g") []
        [(uast.KeyType, .str typeFuncGroup), ("Nodes", .array [aliasN])]
        [aliasN]).2 rfl rfl (by decide))⟩

/-- C7: re-running the normalizers on their own output changes nothing:
`opMoveTrivias.Check` reports no-match on any Object with no side-channel
trivia array fields and no token/keyword field holding a Group, and
`opMergeGroups.Check` reports no-match on any node needing no merge or
compaction (a node of neither reserved type; a Group whose Nodes holds no
FunctionGroup; a FunctionGroup with no nulls and no nested Group to
flatten), so such nodes pass through unmodified. -/
theorem claim7_idempotence :
    (∀ (sub : Op) (st : State) (fs : Fields),
      asArr? (getFieldD fs "LeadingTrivia") = none →
      asArr? (getFieldD fs "TrailingTrivia") = none →
      (∀ kv ∈ fs, isTokenKey kv.1 = true → uast.TypeOf kv.2 ≠ typeGroup) →
      opMoveTrivias.Check ⟨sub⟩ st (.obj fs) = .ok (false, st))
    ∧ (∀ (sub : Op) (st : State) (n : Node),
      uast.TypeOf n ≠ typeGroup → uast.TypeOf n ≠ typeFuncGroup →
      opMergeGroups.Check ⟨sub⟩ st n = .ok (false, st))
    ∧ (∀ (sub : Op) (st : State) (g : Fields) (arr : List Node),
      uast.TypeOf (.obj g) = typeGroup →
      getField g "Nodes" = some (.array arr) →
      (∀ v ∈ arr, uast.TypeOf v ≠ typeFuncGroup) →
      opMergeGroups.Check ⟨sub⟩ st (.obj g) = .ok (false, st))
    ∧ (∀ (sub : Op) (st : State) (fg : Fields) (arr : List Node),
      uast.TypeOf (.obj fg) = typeFuncGroup →
      getField fg "Nodes" = some (.array arr) →
      arr.any entryChanges = false →
      opMergeGroups.Check ⟨sub⟩ st (.obj fg) = .ok (false, st)) := by
  refine ⟨?_, ?_, ?_, ?_⟩
  · intro sub st fs hl ht htok
    have hnone : ∀ kv ∈ fs, tokenGroupArr kv = none :=
      fun kv hkv => tokenGroupArr_eq_none (htok kv hkv)
    simp only [opMoveTrivias.Check, moveTokenGroups_eq, hl, ht]
    simp [map_fieldRepl_of_none hnone, map_fieldLead_of_none hnone,
          map_fieldTrail_of_none hnone, any_tokenGroupArr_of_none hnone]
  · intro sub st n h1 h2
    cases n with
    | obj g => simp [opMergeGroups.Check, h1, h2]
    | null => rfl
    | bool b => rfl
    | int i => rfl
    | uint u => rfl
    | float f => rfl
    | str s => rfl
    | array a => rfl
  · intro sub st g arr hty hn hall
    have hidx : firstWithType arr (fun typ => typ = typeFuncGroup) = none :=
      firstIdxP_eq_none fun v hv => decide_eq_false (hall v hv)
    simp only [opMergeGroups.Check, hty, if_pos]
    simp only [opMergeGroups.checkGroup, hn, hidx]
  · intro sub st fg arr hty hn hchg
    have hok : ∀ v ∈ arr, entryOk v = true := by
      intro v hv
      apply entryOk_of_not_changes
      have := List.any_eq_false.1 hchg v hv
      simpa using this
    have hne : typeFuncGroup ≠ typeGroup := by decide
    have hrun := checkFuncNodes_eq arr hok
    simp only [opMergeGroups.Check, hty, hne, if_neg, if_pos, reduceIte]
    simp only [opMergeGroups.checkFuncGroup, hn, hrun, hchg, Bool.not_false, if_true]

/-- Witness for C7: a trivia-free object with a token field holding a plain
token, a non-reserved-type node, a Group without FunctionGroup, and an
already-compact FunctionGroup all report no-match. -/
theorem claim7_witness :
    opMoveTrivias.Check ⟨opVar "g"⟩ []
        (.obj [(uast.KeyType, .str "IdentifierName"), ("FooToken", identTok)])
      = .ok (false, [])
    ∧ opMergeGroups.Check ⟨opVar "g"⟩ [] (.obj [(uast.KeyType, .str "X")])
      = .ok (false, [])
    ∧ opMergeGroups.Check ⟨opVar "g"⟩ []
        (.obj [(uast.KeyType, .str typeGroup), ("Nodes", .array [trivC, identTok])])
      = .ok (false, [])
    ∧ opMergeGroups.Check ⟨opVar "g"⟩ []
        (.obj [(uast.KeyType, .str typeFuncGroup), ("Nodes", .array [aliasN, .array [identTok]])])
      = .ok (false, []) :=
  ⟨claim7_idempotence.1 (opVar "g") []
      [(uast.KeyType, .str "IdentifierName"), ("FooToken", identTok)]
      rfl rfl (by decide),
   claim7_idempotence.2.1 (opVar "g") [] (.obj [(uast.KeyType, .str "X")])
      (by decide) (by decide),
   claim7_idempotence.2.2.1 (opVar "g") []
      [(uast.KeyType, .str typeGroup), ("Nodes", .array [trivC, identTok])]
      [trivC, identTok] rfl rfl (by decide),
   claim7_idempotence.2.2.2 (opVar "g") []
      [(uast.KeyType, .str typeFuncGroup), ("Nodes", .array [aliasN, .array [identTok]])]
      [aliasN, .array [identTok]] rfl rfl (by decide)⟩

/-- C9: invariant violations abort with an error rather than a shape
mismatch: `opArrToChain.Construct` errors when a modifier object already
carries "Type"; `opMoveTrivias.Check` errors when the designated target
array field is missing or not an array at splice time; and `opMergeGroups`
errors when a Group's or FunctionGroup's "Nodes" field is not an array. -/
theorem claim9_invariant_errors :
    (∀ (op : opArrToChain) (st : State) (n : Node) (ms : List Node) (st1 : State)
        (t : Node) (st2 : State),
      op.opMods.construct st .null = .ok (.array ms, st1) →
      op.opType.construct st1 n = .ok (t, st2) →
      (∀ m ∈ ms, isObjNode m = true) →
      (∃ m ∈ ms, hasTypeField m = true) →
      op.Construct st n = .error "unexpected field in modifier: Type")
    ∧ (∀ (sub : Op) (st : State) (fs obj1 obj2 : Fields) (L T : List Node) (f : String),
      obj1 = (if (asArr? (getFieldD fs "LeadingTrivia")).isSome ||
                 (asArr? (getFieldD fs "TrailingTrivia")).isSome
              then removeField (removeField fs "LeadingTrivia") "TrailingTrivia" else fs) →
      obj2 = obj1.map fieldRepl →
      L = (asArr? (getFieldD fs "LeadingTrivia")).getD [] ++ (obj1.map fieldLead).flatten →
      T = ((obj1.map fieldTrail).reverse).flatten ++
          (asArr? (getFieldD fs "TrailingTrivia")).getD [] →
      ¬(L = [] ∧ T = []) →
      triviaField (uast.TypeOf (.obj obj2)) = some f →
      isSomeArray (getField obj2 f) = false →
      opMoveTrivias.Check ⟨sub⟩ st (.obj fs)
        = .error ("expected " ++ f ++ " field to be an array"))
    ∧ (∀ (sub : Op) (st : State) (g : Fields),
      uast.TypeOf (.obj g) = typeGroup →
      isSomeArray (getField g "Nodes") = false →
      opMergeGroups.Check ⟨sub⟩ st (.obj g) = .error "expected an array in Group.Nodes")
    ∧ (∀ (sub : Op) (st : State) (g : Fields),
      uast.TypeOf (.obj g) = typeFuncGroup →
      isSomeArray (getField g "Nodes") = false →
      opMergeGroups.Check ⟨sub⟩ st (.obj g)
        = .error "expected an array in FuncGroup.Nodes") := by
  refine ⟨?_, ?_, ?_, ?_⟩
  · intro op st n ms st1 t st2 hmods htyp hobj hsome
    have hfold := chainFold_error ms t hobj hsome
    simp only [opArrToChain.Construct, hmods, htyp, hfold]
  · intro sub st fs obj1 obj2 L T f h1 h2 h3 h4 hne hf hold
    have hcases := opMoveTrivias_check_cases sub st fs obj1 obj2 L T
      (((asArr? (getFieldD fs "LeadingTrivia")).isSome ||
        (asArr? (getFieldD fs "TrailingTrivia")).isSome) ||
       obj1.any fun kv => (tokenGroupArr kv).isSome) h1 h2 h3 h4 rfl
    have hfalse : (L.isEmpty && T.isEmpty) = false := by
      rcases L with _ | ⟨x, xs⟩
      · rcases T with _ | ⟨y, ys⟩
        · exact absurd ⟨rfl, rfl⟩ hne
        · rfl
      · rfl
    rw [hcases, hfalse]
    simp only [Bool.false_eq_true, if_false]
    rcases hg : getField obj2 f with _ | v
    · simp [hf, hg]
    · cases v with
      | array a =>
        rw [hg] at hold
        simp [isSomeArray] at hold
      | null => simp [hf, hg]
      | bool b => simp [hf, hg]
      | int i => simp [hf, hg]
      | uint u => simp [hf, hg]
      | float x => simp [hf, hg]
      | str s => simp [hf, hg]
      | obj o => simp [hf, hg]
  · intro sub st g hty hn
    rcases hg : getField g "Nodes" with _ | v
    · simp [opMergeGroups.Check, opMergeGroups.checkGroup, hty, hg]
    · cases v with
      | array a =>
        rw [hg] at hn
        simp [isSomeArray] at hn
      | null => simp [opMergeGroups.Check, opMergeGroups.checkGroup, hty, hg]
      | bool b => simp [opMergeGroups.Check, opMergeGroups.checkGroup, hty, hg]
      | int i => simp [opMergeGroups.Check, opMergeGroups.checkGroup, hty, hg]
      | uint u => simp [opMergeGroups.Check, opMergeGroups.checkGroup, hty, hg]
      | float x => simp [opMergeGroups.Check, opMergeGroups.checkGroup, hty, hg]
      | str s => simp [opMergeGroups.Check, opMergeGroups.checkGroup, hty, hg]
      | obj o => simp [opMergeGroups.Check, opMergeGroups.checkGroup, hty, hg]
  · intro sub st g hty hn
    have hne : typeFuncGroup ≠ typeGroup := by decide
    rcases hg : getField g "Nodes" with _ | v
    · simp [opMergeGroups.Check, opMergeGroups.checkFuncGroup, hty, hne, hg]
    · cases v with
      | array a =>
        rw [hg] at hn
        simp [isSomeArray] at hn
      | null => simp [opMergeGroups.Check, opMergeGroups.checkFuncGroup, hty, hne, hg]
      | bool b => simp [opMergeGroups.Check, opMergeGroups.checkFuncGroup, hty, hne, hg]
      | int i => simp [opMergeGroups.Check, opMergeGroups.checkFuncGroup, hty, hne, hg]
      | uint u => simp [opMergeGroups.Check, opMergeGroups.checkFuncGroup, hty, hne, hg]
      | float x => simp [opMergeGroups.Check, opMergeGroups.checkFuncGroup, hty, hne, hg]
      | str s => simp [opMergeGroups.Check, opMergeGroups.checkFuncGroup, hty, hne, hg]
      | obj o => simp [opMergeGroups.Check, opMergeGroups.checkFuncGroup, hty, hne, hg]

/-- Witness for C9: a modifier already carrying "Type", a Block whose
Statements field is not an array at splice time, a Group with a non-array
Nodes, and a FunctionGroup with a missing Nodes all abort with errors. -/
theorem claim9_witness :
    opArrToChain.Construct
        ⟨opConst (.array [.obj [("Type", intNode)]]), opConst intNode⟩ [] .null
      = .error "unexpected field in modifier: Type"
    ∧ opMoveTrivias.Check ⟨anyOp⟩ []
        (.obj [(uast.KeyType, .str "Block"),
               ("LeadingTrivia", .array [trivC]), ("Statements", .int 0)])
      = .error "expected Statements field to be an array"
    ∧ opMergeGroups.Check ⟨anyOp⟩ []
        (.obj [(uast.KeyType, .str typeGroup), ("Nodes", .int 0)])
      = .error "expected an array in Group.Nodes"
    ∧ opMergeGroups.Check ⟨anyOp⟩ []
        (.obj [(uast.KeyType, .str typeFuncGroup)])
      = .error "expected an array in FuncGroup.Nodes" :=
  ⟨(claim9_invariant_errors.1
      ⟨opConst (.array [.obj [("Type", intNode)]]), opConst intNode⟩ [] .null
      [.obj [("Type", intNode)]] [] intNode []
      rfl rfl (by decide) ⟨.obj [("Type", intNode)], List.mem_singleton.mpr rfl, rfl⟩),
   (claim9_invariant_errors.2.1 anyOp []
      [(uast.KeyType, .str "Block"),
       ("LeadingTrivia", .array [trivC]), ("Statements", .int 0)]
      [(uast.KeyType, .str "Block"), ("Statements", .int 0)]
      [(uast.KeyType, .str "Block"), ("Statements", .int 0)]
      [trivC] [] "Statements"
      rfl rfl rfl rfl (by simp) rfl rfl).trans rfl,
   claim9_invariant_errors.2.2.1 anyOp []
      [(uast.KeyType, .str typeGroup), ("Nodes", .int 0)] rfl rfl,
   claim9_invariant_errors.2.2.2 anyOp []
      [(uast.KeyType, .str typeFuncGroup)] rfl rfl⟩

/-- C1 counterexample: when trivia is extracted by unwrapping a Group held in
a token field, the wrapped middle node is not "the node stripped of its
Leading/TrailingTrivia fields" (that node is unchanged here, having neither
field): the token field has additionally been replaced by the Group's
non-trivia element. -/
theorem claim1_counterexample :
    opMoveTrivias.Check ⟨opVar "g"⟩ [] (.obj tokFs)
      = .ok (true, [("g", .obj [(uast.KeyType, .str typeGroup),
          ("Nodes", .array [trivC,
            .obj [(uast.KeyType, .str "X"), ("FooToken", identTok)]])])])
    ∧ Node.obj [(uast.KeyType, .str "X"), ("FooToken", identTok)] ≠ .obj tokFs := by
  refine ⟨rfl, ?_⟩
  simp [tokFs, identTok, uast.KeyType, typeGroup, trivC]

/-- C1 (amended): for every Object from which the relocator holds a
non-empty leading list L and/or trailing list T — drawn from the
Leading/TrailingTrivia fields and from unwrapping Groups held in
token/keyword fields — with the processed node obtained by removing the
trivia fields and replacing each unwrapped token field: if the node's type
has a designated target array field, `opMoveTrivias.Check` replaces that
field with L ++ original-field-contents ++ T, in that order, without
wrapping; otherwise it delegates a fresh generic Group whose "Nodes" is
exactly L ++ [processed node] ++ T. -/
theorem claim1_trivia_relocation (sub : Op) (st : State) (fs obj1 obj2 : Fields)
    (L T : List Node)
    (h1 : obj1 = if (asArr? (getFieldD fs "LeadingTrivia")).isSome ||
                    (asArr? (getFieldD fs "TrailingTrivia")).isSome
          then removeField (removeField fs "LeadingTrivia") "TrailingTrivia" else fs)
    (h2 : obj2 = obj1.map fieldRepl)
    (h3 : L = (asArr? (getFieldD fs "LeadingTrivia")).getD [] ++ (obj1.map fieldLead).flatten)
    (h4 : T = ((obj1.map fieldTrail).reverse).flatten ++
              (asArr? (getFieldD fs "TrailingTrivia")).getD [])
    (hne : ¬(L = [] ∧ T = [])) :
    (∀ (f : String) (old : List Node),
      triviaField (uast.TypeOf (.obj obj2)) = some f →
      getField obj2 f = some (.array old) →
      opMoveTrivias.Check ⟨sub⟩ st (.obj fs)
        = sub.check st (.obj (setField obj2 f (.array (L ++ old ++ T)))))
    ∧ (triviaField (uast.TypeOf (.obj obj2)) = none →
      opMoveTrivias.Check ⟨sub⟩ st (.obj fs)
        = sub.check st (.obj [(uast.KeyType, .str typeGroup),
            ("Nodes", .array (L ++ [Node.obj obj2] ++ T))])) := by
  have hcases := opMoveTrivias_check_cases sub st fs obj1 obj2 L T
    (((asArr? (getFieldD fs "LeadingTrivia")).isSome ||
      (asArr? (getFieldD fs "TrailingTrivia")).isSome) ||
     obj1.any fun kv => (tokenGroupArr kv).isSome) h1 h2 h3 h4 rfl
  have hfalse : (L.isEmpty && T.isEmpty) = false := by
    rcases L with _ | ⟨x, xs⟩
    · rcases T with _ | ⟨y, ys⟩
      · exact absurd ⟨rfl, rfl⟩ hne
      · rfl
    · rfl
  constructor
  · intro f old hf hold
    rw [hcases, hfalse]
    simp only [Bool.false_eq_true, if_false, hf, hold]
  · intro hf
    rw [hcases, hfalse]
    simp only [Bool.false_eq_true, if_false, hf]

/-- Witness for C1: Scenario 2 — a Block with leading [C1], trailing [C2]
and statements [S1] gets statements [C1, S1, C2] and no wrapper; an "X"
node with leading [C1] is wrapped into a Group [C1, stripped node]. -/
theorem claim1_witness :
    opMoveTrivias.Check ⟨opVar "g"⟩ [] (.obj blockFs)
      = .ok (true, [("g", .obj [(uast.KeyType, .str "Block"),
          ("Statements", .array [trivC, stmtS1, trivC2])])])
    ∧ opMoveTrivias.Check ⟨opVar "g"⟩ []
        (.obj [(uast.KeyType, .str "X"), ("LeadingTrivia", .array [trivC])])
      = .ok (true, [("g", .obj [(uast.KeyType, .str typeGroup),
          ("Nodes", .array [trivC, .obj [(uast.KeyType, .str "X")]])])]) :=
  ⟨((claim1_trivia_relocation (opVar "g") [] blockFs
      [(uast.KeyType, .str "Block"), ("Statements", .array [stmtS1])]
      [(uast.KeyType, .str "Block"), ("Statements", .array [stmtS1])]
      [trivC] [trivC2] rfl rfl rfl rfl (by simp)).1
      "Statements" [stmtS1] rfl rfl).trans rfl,
   ((claim1_trivia_relocation (opVar "g") []
      [(uast.KeyType, .str "X"), ("LeadingTrivia", .array [trivC])]
      [(uast.KeyType, .str "X")] [(uast.KeyType, .str "X")]
      [trivC] [] rfl rfl rfl rfl (by simp)).2 rfl).trans rfl⟩
